import Mathlib

/-!
Verification of the DHLab newsletter server (`src/server.js`).

The repository contains two variants of the same Express server in one file:
a SQLite-backed variant (lines 1-360) and a Google-Sheets-backed variant
(lines 361-708).  We shallow-embed the logic the claims are about:

* the digest eligibility evaluator `evaluateAndSend` (conditions A, B, C and
  the early return on an empty backlog),
* the backlog query `getUnemailedEntries` (filter unsent, sort by event date),
* the state mutation `markEntriesEmailed` and the send ledger,
* the per-entry enrichment fallback inside `sendNewsletter`,
* the `POST /submit` request handler.

Timestamps are modelled as `Int` milliseconds (the result of JavaScript
`Date` arithmetic); calendar dates in the submit handler are modelled as
`Int` day numbers after the `setHours(0,0,0,0)` truncation.
-/

/-- An entry row of the SQLite variant: `id INTEGER PRIMARY KEY AUTOINCREMENT,
url TEXT UNIQUE, event_date TEXT, emailed INTEGER DEFAULT 0`.  `event_date`
is stored as text in the database and parsed with `new Date(e.event_date)`
wherever it is compared; we model it by the parsed timestamp directly. -/
structure Entry where
  id : Nat
  url : String
  event_date : Int
  emailed : Bool
  deriving Repr, DecidableEq

/-- `getUnemailedEntries` of the Sheets variant (`server.js:420-438`):
filter `emailed === 0`, then sort with the stable (ES2019)
`Array.prototype.sort` keyed on `new Date(event_date)` — modelled as a
stable insertion sort of the unsent rows in stored order.  The SQLite
variant (`server.js:75-85`) instead runs
`SELECT * FROM entries WHERE emailed = 0 ORDER BY event_date ASC`, which
guarantees only the relational contract `SqlPendingQuery` below: SQLite
leaves the relative order of rows equal on the single sort key unspecified,
and this stable sort is just one of the executions that query permits. -/
def getUnemailedEntries (store : List Entry) : List Entry :=
  List.insertionSort (fun a b => a.event_date ≤ b.event_date)
    (store.filter (fun e => !e.emailed))

/-- `markEntriesEmailed` (`server.js:87-93`):
`UPDATE entries SET emailed = 1 WHERE id IN (ids)`. -/
def markEntriesEmailed (store : List Entry) (ids : List Nat) : List Entry :=
  store.map (fun e => if ids.contains e.id then { e with emailed := true } else e)

/-- `conditionA` (urgency, `server.js:249-251`):
`entries.some((e) => new Date(e.event_date) <= sevenDaysFromNow)` where
`sevenDaysFromNow = now + 7 * 24 * 60 * 60 * 1000`. -/
def conditionA (entries : List Entry) (now : Int) : Bool :=
  entries.any (fun e => e.event_date ≤ now + 7 * 24 * 60 * 60 * 1000)

/-- `conditionB` (volume, `server.js:253`): `entries.length >= 7`. -/
def conditionB (entries : List Entry) : Bool :=
  entries.length ≥ 7

/-- `conditionC` (staleness, `server.js:256-258`):
`!lastSent || now - lastSent > 21 * 24 * 60 * 60 * 1000`.  `lastSent` is a
`Date` object or `null`, so `!lastSent` holds exactly when it is `null`. -/
def conditionC (lastSent : Option Int) (now : Int) : Bool :=
  match lastSent with
  | none => true
  | some t => now - t > 21 * 24 * 60 * 60 * 1000

/-- The eligibility verdict of `evaluateAndSend` (`server.js:239-261`):
`false` via the early `return` when the backlog is empty, otherwise
`conditionA || conditionB || conditionC`. -/
def shouldSend (pending : List Entry) (lastSentAt : Option Int) (now : Int) : Bool :=
  if pending.length == 0 then false
  else conditionA pending now || conditionB pending || conditionC lastSentAt now

/-- Mutable server state: the entry table and the `last_email_sent` ledger
(the `meta` row in the SQLite variant, the in-memory `lastEmailSent` in the
Sheets variant). -/
structure SystemState where
  entries : List Entry
  lastSent : Option Int
  deriving Repr, DecidableEq

/-- One `evaluateAndSend` cycle (`server.js:239-272`).  `dispatchOk` is the
outcome of the `resend.emails.send` call inside `sendNewsletter`: on provider
failure `sendNewsletter` throws (`if (error) throw error`), the exception
propagates past `markEntriesEmailed` and `updateLastEmailSent` to the `catch`
block, and no state is mutated.  The second component is the batch handed to
the dispatcher when a send succeeds. -/
def evaluateAndSend (s : SystemState) (now : Int) (dispatchOk : Bool) :
    SystemState × Option (List Entry) :=
  let entries := getUnemailedEntries s.entries
  if entries.length == 0 then (s, none)
  else if conditionA entries now || conditionB entries || conditionC s.lastSent now then
    if dispatchOk then
      ({ entries := markEntriesEmailed s.entries (entries.map (·.id)),
         lastSent := some now }, some entries)
    else (s, none)
  else (s, none)

/-! ## Claims C1-C4: the eligibility verdict -/

/-- **C1.** If the list of pending (unsent) entries is empty, the
evaluate-and-send cycle sends nothing and leaves the state untouched, and the
verdict `shouldSend` on an empty pending list is `false` for every
`lastSentAt` and every `now`. -/
theorem empty_backlog_never_sends (s : SystemState) (now : Int) (d : Bool)
    (h : getUnemailedEntries s.entries = []) :
    evaluateAndSend s now d = (s, none) ∧
      ∀ (lastSentAt : Option Int) (now2 : Int), shouldSend [] lastSentAt now2 = false := by
  constructor
  · simp [evaluateAndSend, h]
  · intro lastSentAt now2
    simp [shouldSend]

/-- Witness for `empty_backlog_never_sends` at a concrete state. -/
theorem empty_backlog_never_sends_witness :
    evaluateAndSend ⟨[⟨1, "https://a", 5, true⟩], some 0⟩ 100 true =
      (⟨[⟨1, "https://a", 5, true⟩], some 0⟩, none) :=
  (empty_backlog_never_sends ⟨[⟨1, "https://a", 5, true⟩], some 0⟩ 100 true
    (by decide)).1

/-- **C2.** On a non-empty pending list, one entry with
`event_date ≤ now + 7 days` makes `shouldSend` true for every `lastSentAt`;
in particular an entry whose `event_date` is strictly in the past also
triggers it, since the comparison is `≤`, not a range check. -/
theorem urgent_entry_triggers_send (pending : List Entry) (now : Int)
    (hne : pending ≠ []) :
    ((∃ e ∈ pending, e.event_date ≤ now + 7 * 24 * 60 * 60 * 1000) →
       ∀ lastSentAt, shouldSend pending lastSentAt now = true) ∧
    ((∃ e ∈ pending, e.event_date < now) →
       ∀ lastSentAt, shouldSend pending lastSentAt now = true) := by
  have hlen : ¬ pending.length == 0 := by
    simpa [List.length_eq_zero] using hne
  constructor
  · rintro ⟨e, he, hdate⟩ lastSentAt
    have hA : conditionA pending now = true := by
      simp only [conditionA, List.any_eq_true]
      exact ⟨e, he, by simpa using hdate⟩
    simp [shouldSend, hlen, hA]
  · rintro ⟨e, he, hdate⟩ lastSentAt
    have hA : conditionA pending now = true := by
      simp only [conditionA, List.any_eq_true]
      refine ⟨e, he, ?_⟩
      have : e.event_date ≤ now + 7 * 24 * 60 * 60 * 1000 := by omega
      simpa using this
    simp [shouldSend, hlen, hA]

/-- Witness for `urgent_entry_triggers_send`: a single already-past entry. -/
theorem urgent_entry_triggers_send_witness :
    shouldSend [⟨1, "https://a", -5, false⟩] (some 99) 100 = true :=
  (urgent_entry_triggers_send [⟨1, "https://a", -5, false⟩] 100
    (by decide)).2 ⟨⟨1, "https://a", -5, false⟩, by simp, by decide⟩ (some 99)

/-- **C3.** A pending list with at least 7 entries makes `shouldSend` true,
whatever the event dates and the ledger. -/
theorem volume_triggers_send (pending : List Entry) (h : pending.length ≥ 7) :
    ∀ (lastSentAt : Option Int) (now : Int),
      shouldSend pending lastSentAt now = true := by
  intro lastSentAt now
  have hlen : ¬ pending.length == 0 := by
    simp only [beq_iff_eq]
    omega
  have hB : conditionB pending = true := by
    simpa [conditionB] using h
  simp [shouldSend, hlen, hB]

/-- Witness for `volume_triggers_send`: seven far-future entries, ledger
updated just now. -/
theorem volume_triggers_send_witness :
    shouldSend
      [⟨1, "u1", 10 ^ 12, false⟩, ⟨2, "u2", 10 ^ 12, false⟩,
       ⟨3, "u3", 10 ^ 12, false⟩, ⟨4, "u4", 10 ^ 12, false⟩,
       ⟨5, "u5", 10 ^ 12, false⟩, ⟨6, "u6", 10 ^ 12, false⟩,
       ⟨7, "u7", 10 ^ 12, false⟩] (some 0) 0 = true :=
  volume_triggers_send _ (by decide) (some 0) 0

/-- **C4.** On a non-empty pending list, an absent ledger, or a ledger more
than 21 days old, makes `shouldSend` true, whatever the entries. -/
theorem staleness_triggers_send (pending : List Entry) (lastSentAt : Option Int)
    (now : Int) (hne : pending ≠ [])
    (hstale : lastSentAt = none ∨
      ∃ t, lastSentAt = some t ∧ now - t > 21 * 24 * 60 * 60 * 1000) :
    shouldSend pending lastSentAt now = true := by
  have hlen : ¬ pending.length == 0 := by
    simpa [List.length_eq_zero] using hne
  have hC : conditionC lastSentAt now = true := by
    rcases hstale with h | ⟨t, ht, hgt⟩
    · simp [conditionC, h]
    · simp only [conditionC, ht, decide_eq_true_eq]
      omega
  simp [shouldSend, hlen, hC]

/-- Witness for `staleness_triggers_send`: one far-future entry, no previous
send recorded. -/
theorem staleness_triggers_send_witness :
    shouldSend [⟨1, "https://a", 10 ^ 12, false⟩] none 0 = true :=
  staleness_triggers_send [⟨1, "https://a", 10 ^ 12, false⟩] none 0
    (by decide) (Or.inl rfl)

/-! ## Claim C5: content and ordering of the digest -/

/-- The ordering the spec requires of the digest: ascending `event_date`,
ties broken by ascending `id`. -/
def entryLex (a b : Entry) : Prop :=
  a.event_date < b.event_date ∨ (a.event_date = b.event_date ∧ a.id < b.id)

instance : DecidableRel entryLex := fun a b =>
  inferInstanceAs (Decidable
    (a.event_date < b.event_date ∨ (a.event_date = b.event_date ∧ a.id < b.id)))

/-- What the SQLite query
`SELECT * FROM entries WHERE emailed = 0 ORDER BY event_date ASC`
(`server.js:78`) guarantees about its result set: the unsent rows, in some
order ascending on `event_date`.  SQL fixes nothing further — the relative
order of rows with equal `event_date` is unspecified. -/
def SqlPendingQuery (store result : List Entry) : Prop :=
  result.Perm (store.filter (fun e => !e.emailed)) ∧
  result.Pairwise (fun a b => a.event_date ≤ b.event_date)

/-- Inserting `a` in event-date order into a list that is `entryLex`-sorted
and all of whose ids exceed `a.id` keeps the list `entryLex`-sorted. -/
theorem pairwise_orderedInsert_lex (a : Entry) (L : List Entry)
    (hL : L.Pairwise entryLex) (hid : ∀ b ∈ L, a.id < b.id) :
    (List.orderedInsert (fun x y => x.event_date ≤ y.event_date) a L).Pairwise
      entryLex := by
  induction L with
  | nil => simp [List.orderedInsert]
  | cons b L ih =>
    rcases List.pairwise_cons.mp hL with ⟨hbL, hL'⟩
    rw [List.orderedInsert]
    by_cases hab : a.event_date ≤ b.event_date
    · rw [if_pos hab]
      refine List.pairwise_cons.mpr ⟨?_, hL⟩
      intro c hc
      rcases List.mem_cons.mp hc with rfl | hcL
      · rcases lt_or_eq_of_le hab with h | h
        · exact Or.inl h
        · exact Or.inr ⟨h, hid c (List.mem_cons_self ..)⟩
      · have hbc : b.event_date ≤ c.event_date := by
          rcases hbL c hcL with h | ⟨h, _⟩
          · exact le_of_lt h
          · exact le_of_eq h
        have hac : a.event_date ≤ c.event_date := le_trans hab hbc
        rcases lt_or_eq_of_le hac with h | h
        · exact Or.inl h
        · exact Or.inr ⟨h, hid c (List.mem_cons_of_mem _ hcL)⟩
    · rw [if_neg hab]
      refine List.pairwise_cons.mpr ⟨?_, ?_⟩
      · intro c hc
        rcases (List.mem_orderedInsert _).mp hc with rfl | hcL
        · exact Or.inl (lt_of_not_le hab)
        · exact hbL c hcL
      · exact ih hL' (fun c hc => hid c (List.mem_cons_of_mem _ hc))

/-- The stable event-date sort of a list whose ids are strictly increasing is
sorted by `event_date` with ties in ascending `id` order. -/
theorem pairwise_insertionSort_lex (l : List Entry)
    (h : l.Pairwise (fun a b => a.id < b.id)) :
    (List.insertionSort (fun x y => x.event_date ≤ y.event_date) l).Pairwise
      entryLex := by
  induction l with
  | nil => simp [List.insertionSort]
  | cons a l ih =>
    rcases List.pairwise_cons.mp h with ⟨hid, hl⟩
    rw [List.insertionSort]
    refine pairwise_orderedInsert_lex a _ (ih hl) ?_
    intro b hb
    exact hid b ((List.perm_insertionSort _ l).mem_iff.mp hb)

/-- **C5, counterexample.** The SQLite variant does not guarantee the
ascending-id tie-break: for a store of two pending entries with ids 1, 2 (in
ascending id order) and the same `event_date`, the result listing id 2
before id 1 satisfies everything `ORDER BY event_date ASC` promises
(`SqlPendingQuery`), yet its equal-date entries are not in ascending `id`
order. -/
theorem sqlite_tiebreak_not_guaranteed :
    SqlPendingQuery [⟨1, "https://a", 10, false⟩, ⟨2, "https://b", 10, false⟩]
      [⟨2, "https://b", 10, false⟩, ⟨1, "https://a", 10, false⟩] ∧
    ¬ ([⟨2, "https://b", 10, false⟩,
        ⟨1, "https://a", 10, false⟩] : List Entry).Pairwise entryLex := by
  refine ⟨⟨?_, by decide⟩, by decide⟩
  have h := List.Perm.swap (⟨1, "https://a", 10, false⟩ : Entry)
    ⟨2, "https://b", 10, false⟩ []
  simpa using h

/-- **C5, amended.** When `shouldSend` is true the cycle dispatches all of
the pending (unsent) entries, ordered ascending by `event_date`.  The
ascending-id tie-break holds in the Sheets variant, whose stable sort over
rows stored in ascending-id order (`hids`; ids are assigned from increasing
`Date.now()` values) is modelled by `getUnemailedEntries`, and that output
is one of the executions the SQLite query permits — but SQLite itself
leaves the relative order of equal-`event_date` rows unspecified
(`sqlite_tiebreak_not_guaranteed`). -/
theorem digest_sorted_by_date_amended (s : SystemState) (now : Int)
    (hids : s.entries.Pairwise (fun a b => a.id < b.id))
    (hsend : shouldSend (getUnemailedEntries s.entries) s.lastSent now = true) :
    (evaluateAndSend s now true).2 = some (getUnemailedEntries s.entries) ∧
    SqlPendingQuery s.entries (getUnemailedEntries s.entries) ∧
    (getUnemailedEntries s.entries).Pairwise entryLex := by
  have hlex : (getUnemailedEntries s.entries).Pairwise entryLex :=
    pairwise_insertionSort_lex _
      (List.Pairwise.sublist (List.filter_sublist _) hids)
  refine ⟨?_, ⟨List.perm_insertionSort _ _, ?_⟩, hlex⟩
  · unfold shouldSend at hsend
    unfold evaluateAndSend
    by_cases hlen : (getUnemailedEntries s.entries).length == 0
    · simp [hlen] at hsend
    · rw [if_neg (by simpa using hlen)] at hsend ⊢
      rw [if_pos hsend]
      rfl
  · refine hlex.imp ?_
    intro a b hab
    rcases hab with h | ⟨h, _⟩
    · exact le_of_lt h
    · exact le_of_eq h

/-- Witness for `digest_sorted_by_date_amended`: three pending entries, two
sharing an event date; the digest orders them by date then id. -/
theorem digest_sorted_by_date_amended_witness :
    (evaluateAndSend ⟨[⟨1, "a", 10, false⟩, ⟨2, "b", 10, false⟩,
        ⟨3, "c", 5, false⟩], none⟩ 0 true).2 =
      some (getUnemailedEntries [⟨1, "a", 10, false⟩, ⟨2, "b", 10, false⟩,
        ⟨3, "c", 5, false⟩]) ∧
    SqlPendingQuery [⟨1, "a", 10, false⟩, ⟨2, "b", 10, false⟩,
        ⟨3, "c", 5, false⟩]
      (getUnemailedEntries [⟨1, "a", 10, false⟩, ⟨2, "b", 10, false⟩,
        ⟨3, "c", 5, false⟩]) ∧
    (getUnemailedEntries [⟨1, "a", 10, false⟩, ⟨2, "b", 10, false⟩,
        ⟨3, "c", 5, false⟩]).Pairwise entryLex :=
  digest_sorted_by_date_amended
    ⟨[⟨1, "a", 10, false⟩, ⟨2, "b", 10, false⟩, ⟨3, "c", 5, false⟩], none⟩ 0
    (by decide) (by decide)

/-! ## Claim C6: a failed dispatch mutates nothing -/

/-- **C6.** If the dispatch fails, the cycle marks no entry as sent, leaves
the ledger unchanged, and reports no dispatched batch: `sendNewsletter`
rethrows the provider error before `markEntriesEmailed` and
`updateLastEmailSent` run. -/
theorem failed_dispatch_mutates_nothing (s : SystemState) (now : Int) :
    evaluateAndSend s now false = (s, none) := by
  simp only [evaluateAndSend, Bool.false_eq_true, if_false]
  split <;> simp

/-! ## Claim C7: per-entry enrichment fallback -/

/-- The shape returned by `getLinkPreview`.  JavaScript treats a missing
field as `undefined`, which is falsy like the empty string, so `title` and
`description` are modelled as strings with `""` standing for absent. -/
structure Preview where
  title : String
  description : String
  images : List String
  deriving Repr, DecidableEq

/-- An entry after enrichment (`server.js:103-124`). -/
structure EnrichedEntry where
  entry : Entry
  title : String
  description : String
  image : Option String
  deriving Repr, DecidableEq

/-- One step of the enrichment loop in `sendNewsletter`
(`server.js:104-123`).  `fetch` is the `getLinkPreview` call: `none` models
a rejected promise, caught by the per-entry `catch` which substitutes
`{title: e.url, description: "", image: null}`.  On success the code takes
`preview.title || e.url`, `preview.description || ""` and
`preview.images?.[0] || null` (a falsy first image also yields `null`). -/
def enrichEntry (fetch : String → Option Preview) (e : Entry) : EnrichedEntry :=
  match fetch e.url with
  | some p =>
      { entry := e
        title := if p.title = "" then e.url else p.title
        description := p.description
        image :=
          match p.images.head? with
          | some img => if img = "" then none else some img
          | none => none }
  | none => { entry := e, title := e.url, description := "", image := none }

/-- The `Promise.all(entries.map(...))` of `sendNewsletter`: every entry is
enriched independently. -/
def enrichEntries (fetch : String → Option Preview) (entries : List Entry) :
    List EnrichedEntry :=
  entries.map (enrichEntry fetch)

/-- Enrichment never changes the underlying entry. -/
theorem enrichEntry_entry (fetch : String → Option Preview) (x : Entry) :
    (enrichEntry fetch x).entry = x := by
  unfold enrichEntry
  cases fetch x.url <;> rfl

/-- The enriched batch carries exactly the input entries, in order. -/
theorem enrichEntries_map_entry (fetch : String → Option Preview)
    (entries : List Entry) :
    (enrichEntries fetch entries).map EnrichedEntry.entry = entries := by
  unfold enrichEntries
  induction entries with
  | nil => rfl
  | cons a l ih => simp only [List.map_cons, enrichEntry_entry, ih]

/-- **C7.** An entry whose preview fetch fails is replaced by the
deterministic fallback — title is the raw URL, description empty, image
empty — and the rest of the batch is unaffected: the enriched batch always
carries every input entry, in order. -/
theorem fetch_failure_falls_back (fetch : String → Option Preview)
    (entries : List Entry) (e : Entry) (he : e ∈ entries)
    (hf : fetch e.url = none) :
    enrichEntry fetch e = { entry := e, title := e.url, description := "", image := none } ∧
    (enrichEntries fetch entries).map EnrichedEntry.entry = entries ∧
    { entry := e, title := e.url, description := "", image := none } ∈
      enrichEntries fetch entries := by
  have hfall :
      enrichEntry fetch e
        = { entry := e, title := e.url, description := "", image := none } := by
    unfold enrichEntry
    rw [hf]
  refine ⟨hfall, enrichEntries_map_entry fetch entries, ?_⟩
  · unfold enrichEntries
    rw [← hfall]
    exact List.mem_map_of_mem _ he

/-- Witness for `fetch_failure_falls_back`: a two-entry batch in which the
first entry's fetch fails and the second succeeds. -/
theorem fetch_failure_falls_back_witness :
    enrichEntry
        (fun u => if u = "https://b" then some ⟨"B", "desc", ["img"]⟩ else none)
        ⟨1, "https://a", 5, false⟩
      = { entry := ⟨1, "https://a", 5, false⟩, title := "https://a",
          description := "", image := none } ∧
    (enrichEntries
        (fun u => if u = "https://b" then some ⟨"B", "desc", ["img"]⟩ else none)
        [⟨1, "https://a", 5, false⟩, ⟨2, "https://b", 6, false⟩]).map
      EnrichedEntry.entry = [⟨1, "https://a", 5, false⟩, ⟨2, "https://b", 6, false⟩] ∧
    { entry := ⟨1, "https://a", 5, false⟩, title := "https://a",
      description := "", image := none } ∈
      enrichEntries
        (fun u => if u = "https://b" then some ⟨"B", "desc", ["img"]⟩ else none)
        [⟨1, "https://a", 5, false⟩, ⟨2, "https://b", 6, false⟩] :=
  fetch_failure_falls_back _ _ ⟨1, "https://a", 5, false⟩
    (by simp) (by decide)

/-! ## Claims C8 and C10: the `POST /submit` endpoint -/

/-- JavaScript `String.prototype.trim`: strip leading and trailing
whitespace.  (Defined over the character list so that concrete instances
reduce; Lean's own `String.trim` computes the same result.) -/
def jsTrim (s : String) : String :=
  ⟨((s.data.dropWhile Char.isWhitespace).reverse.dropWhile
      Char.isWhitespace).reverse⟩

/-- The HTTP outcome of a submit request. -/
inductive SubmitResult where
  | err (status : Nat) (message : String)
  | ok (id : Nat)
  deriving Repr, DecidableEq

/-- The `POST /submit` handler (SQLite variant `server.js:285-322`, Sheets
variant `server.js:627-677`).  `urlField`/`dateField` are the request body
fields (`none` = absent); the handler trims the url
(`req.body.url?.trim()`) and rejects falsy values (absent or empty).
`parseDay` abstracts `new Date(date)` followed by `setHours(0,0,0,0)`;
`today` is the same truncation of the current clock.  The duplicate check is
the `UNIQUE` constraint on `url` in the SQLite variant and the
`urls.includes(url)` scan in the Sheets variant — both compare the trimmed
url against stored urls.  `dbFail` models an unclassified store write
failure, answered with 500. -/
def handleSubmit (store : List Entry) (nextId : Nat) (dbFail : Bool)
    (urlField dateField : Option String) (parseDay : String → Int)
    (today : Int) : SubmitResult × List Entry :=
  let url := jsTrim (urlField.getD "")
  let date := dateField.getD ""
  if url = "" ∨ date = "" then (.err 400 "Missing url or date", store)
  else if parseDay date < today then (.err 400 "Date cannot be in the past", store)
  else if store.any (fun e => e.url == url) then
    (.err 409 "URL already submitted", store)
  else if dbFail then (.err 500 "DB error", store)
  else (.ok nextId, store ++ [⟨nextId, url, parseDay date, false⟩])

/-- **C8.** The submit handler: missing url or date gives 400; a date before
today gives 400 "Date cannot be in the past"; a url already stored gives 409
"URL already submitted"; otherwise the entry is appended and the response
carries the new id; an unclassified store error gives 500.  Failing requests
leave the store unchanged. -/
theorem submit_validation_cases (store : List Entry) (nextId : Nat)
    (dbFail : Bool) (u d : Option String) (parseDay : String → Int)
    (today : Int) :
    ((jsTrim (u.getD "") = "" ∨ d.getD "" = "") →
       handleSubmit store nextId dbFail u d parseDay today
         = (.err 400 "Missing url or date", store)) ∧
    (jsTrim (u.getD "") ≠ "" → d.getD "" ≠ "" → parseDay (d.getD "") < today →
       handleSubmit store nextId dbFail u d parseDay today
         = (.err 400 "Date cannot be in the past", store)) ∧
    (jsTrim (u.getD "") ≠ "" → d.getD "" ≠ "" → ¬ parseDay (d.getD "") < today →
       (∃ e ∈ store, e.url = jsTrim (u.getD "")) →
       handleSubmit store nextId dbFail u d parseDay today
         = (.err 409 "URL already submitted", store)) ∧
    (jsTrim (u.getD "") ≠ "" → d.getD "" ≠ "" → ¬ parseDay (d.getD "") < today →
       (∀ e ∈ store, e.url ≠ jsTrim (u.getD "")) → dbFail = true →
       handleSubmit store nextId dbFail u d parseDay today
         = (.err 500 "DB error", store)) ∧
    (jsTrim (u.getD "") ≠ "" → d.getD "" ≠ "" → ¬ parseDay (d.getD "") < today →
       (∀ e ∈ store, e.url ≠ jsTrim (u.getD "")) → dbFail = false →
       handleSubmit store nextId dbFail u d parseDay today
         = (.ok nextId,
            store ++ [⟨nextId, jsTrim (u.getD ""), parseDay (d.getD ""), false⟩])) := by
  refine ⟨?_, ?_, ?_, ?_, ?_⟩
  · intro h
    unfold handleSubmit
    rw [if_pos h]
  · intro hu hd hpast
    unfold handleSubmit
    rw [if_neg (by tauto), if_pos hpast]
  · intro hu hd hpast hdup
    have hany : store.any (fun e => e.url == jsTrim (u.getD "")) = true := by
      rcases hdup with ⟨e, he, heq⟩
      simp only [List.any_eq_true, beq_iff_eq]
      exact ⟨e, he, heq⟩
    unfold handleSubmit
    rw [if_neg (by tauto), if_neg hpast, if_pos hany]
  · intro hu hd hpast hfresh hfail
    have hany : ¬ store.any (fun e => e.url == jsTrim (u.getD "")) = true := by
      simp only [List.any_eq_true, beq_iff_eq]
      rintro ⟨e, he, heq⟩
      exact hfresh e he heq
    unfold handleSubmit
    rw [if_neg (by tauto), if_neg hpast, if_neg hany, if_pos (by simp [hfail])]
  · intro hu hd hpast hfresh hfail
    have hany : ¬ store.any (fun e => e.url == jsTrim (u.getD "")) = true := by
      simp only [List.any_eq_true, beq_iff_eq]
      rintro ⟨e, he, heq⟩
      exact hfresh e he heq
    unfold handleSubmit
    rw [if_neg (by tauto), if_neg hpast, if_neg hany, if_neg (by simp [hfail])]

/-- Witness for `submit_validation_cases`: a yesterday date is refused with
400 "Date cannot be in the past" (the handler run on `today = 5` with a
parser sending every date string to day 4). -/
theorem submit_validation_cases_witness :
    handleSubmit [] 1 false (some "https://a") (some "2020-01-01")
        (fun _ => 4) 5
      = (.err 400 "Date cannot be in the past", []) :=
  (submit_validation_cases [] 1 false (some "https://a") (some "2020-01-01")
      (fun _ => 4) 5).2.1
    (by decide) (by decide) (by decide)

/-- **C10.** The handler trims surrounding whitespace from the url before
validation, duplicate detection and storage: a successful submission stores
the trimmed url, and a second submission whose url differs only in
surrounding whitespace is rejected 409 as a duplicate. -/
theorem submit_trims_url (store : List Entry) (n1 n2 : Nat)
    (u1 u2 d1 d2 : String) (parseDay : String → Int) (today : Int)
    (htrim : jsTrim u1 = jsTrim u2) (hne : jsTrim u1 ≠ "")
    (hd1 : d1 ≠ "") (hd2 : d2 ≠ "")
    (hp1 : ¬ parseDay d1 < today) (hp2 : ¬ parseDay d2 < today)
    (hfresh : ∀ e ∈ store, e.url ≠ jsTrim u1) :
    handleSubmit store n1 false (some u1) (some d1) parseDay today
      = (.ok n1, store ++ [⟨n1, jsTrim u1, parseDay d1, false⟩]) ∧
    (handleSubmit (store ++ [⟨n1, jsTrim u1, parseDay d1, false⟩]) n2 false
        (some u2) (some d2) parseDay today).1
      = .err 409 "URL already submitted" := by
  constructor
  · exact (submit_validation_cases store n1 false (some u1) (some d1)
      parseDay today).2.2.2.2 hne hd1 hp1 hfresh rfl
  · have hdup : ∃ e ∈ store ++ [(⟨n1, jsTrim u1, parseDay d1, false⟩ : Entry)],
        e.url = jsTrim u2 := by
      refine ⟨⟨n1, jsTrim u1, parseDay d1, false⟩, ?_, htrim⟩
      simp
    have := (submit_validation_cases (store ++ [⟨n1, jsTrim u1, parseDay d1, false⟩])
      n2 false (some u2) (some d2) parseDay today).2.2.1
      (by simpa [← htrim] using hne) hd2 hp2 hdup
    rw [this]

/-- Witness for `submit_trims_url`: `" https://a "` then `"https://a"`. -/
theorem submit_trims_url_witness :
    handleSubmit [] 1 false (some " https://a ") (some "2030-01-01")
        (fun _ => 9) 5
      = (.ok 1, [⟨1, jsTrim " https://a ", 9, false⟩]) ∧
    (handleSubmit [⟨1, jsTrim " https://a ", 9, false⟩] 2 false
        (some "https://a") (some "2030-01-02") (fun _ => 9) 5).1
      = .err 409 "URL already submitted" :=
  submit_trims_url [] 1 2 " https://a " "https://a" "2030-01-01" "2030-01-02"
    (fun _ => 9) 5 (by decide) (by decide) (by decide) (by decide)
    (by decide) (by decide) (by simp)

/-! ## Claim C9: the two variants compute the same verdict -/

/-- A row of the Sheets variant after parsing (`server.js:428-435`): ids are
`Date.now().toString()` strings, `emailed` is `Number(r[4] || 0)`. -/
structure SEntry where
  id : String
  url : String
  event_date : Int
  created_at : String
  emailed : Nat
  deriving Repr, DecidableEq

/-- `conditionA` of the Sheets variant (`server.js:592-594`). -/
def conditionA_sheets (entries : List SEntry) (now : Int) : Bool :=
  entries.any (fun e => e.event_date ≤ now + 7 * 24 * 60 * 60 * 1000)

/-- `conditionB` of the Sheets variant (`server.js:596`). -/
def conditionB_sheets (entries : List SEntry) : Bool :=
  entries.length ≥ 7

/-- `conditionC` of the Sheets variant (`server.js:599-601`); `lastSent` here
is the in-memory `lastEmailSent`. -/
def conditionC_sheets (lastSent : Option Int) (now : Int) : Bool :=
  match lastSent with
  | none => true
  | some t => now - t > 21 * 24 * 60 * 60 * 1000

/-- The eligibility verdict of the Sheets variant's `evaluateAndSend`
(`server.js:582-603`). -/
def shouldSend_sheets (pending : List SEntry) (lastSentAt : Option Int)
    (now : Int) : Bool :=
  if pending.length == 0 then false
  else conditionA_sheets pending now || conditionB_sheets pending ||
    conditionC_sheets lastSentAt now

/-- Two lists with equal images under `f` and `g` agree on any predicate of
those images. -/
theorem any_eq_of_map_eq {α β γ : Type*} (f : α → γ) (g : β → γ) (r : γ → Bool)
    (p : List α) (q : List β) (h : p.map f = q.map g) :
    p.any (fun x => r (f x)) = q.any (fun x => r (g x)) := by
  induction p generalizing q with
  | nil =>
    cases q with
    | nil => rfl
    | cons b q => simp at h
  | cons a p ih =>
    cases q with
    | nil => simp at h
    | cons b q =>
      simp only [List.map_cons, List.cons.injEq] at h
      simp only [List.any_cons, h.1, ih q h.2]

/-- **C9.** Given pending lists with the same event dates (hence the same
length), the same ledger value and the same `now`, the SQLite and Sheets
variants compute identical `conditionA`, `conditionB`, `conditionC` and the
same `shouldSend` verdict. -/
theorem variants_agree (p : List Entry) (q : List SEntry)
    (h : p.map Entry.event_date = q.map SEntry.event_date)
    (lastSentAt : Option Int) (now : Int) :
    conditionA p now = conditionA_sheets q now ∧
    conditionB p = conditionB_sheets q ∧
    conditionC lastSentAt now = conditionC_sheets lastSentAt now ∧
    shouldSend p lastSentAt now = shouldSend_sheets q lastSentAt now := by
  have hlen : p.length = q.length := by
    have hc := congrArg List.length h
    simpa using hc
  have hA : conditionA p now = conditionA_sheets q now :=
    any_eq_of_map_eq Entry.event_date SEntry.event_date
      (fun t => decide (t ≤ now + 7 * 24 * 60 * 60 * 1000)) p q h
  have hB : conditionB p = conditionB_sheets q := by
    unfold conditionB conditionB_sheets
    rw [hlen]
  have hC : conditionC lastSentAt now = conditionC_sheets lastSentAt now := rfl
  refine ⟨hA, hB, hC, ?_⟩
  unfold shouldSend shouldSend_sheets
  rw [hlen, hA, hB, hC]

/-- Witness for `variants_agree`: one entry with the same event date on both
sides. -/
theorem variants_agree_witness :
    conditionA [⟨1, "https://a", 5, false⟩] 100
      = conditionA_sheets [⟨"1", "https://a", 5, "t0", 0⟩] 100 ∧
    conditionB [⟨1, "https://a", 5, false⟩]
      = conditionB_sheets [⟨"1", "https://a", 5, "t0", 0⟩] ∧
    conditionC (some 3) 100 = conditionC_sheets (some 3) 100 ∧
    shouldSend [⟨1, "https://a", 5, false⟩] (some 3) 100
      = shouldSend_sheets [⟨"1", "https://a", 5, "t0", 0⟩] (some 3) 100 :=
  variants_agree [⟨1, "https://a", 5, false⟩] [⟨"1", "https://a", 5, "t0", 0⟩]
    (by decide) (some 3) 100
